import Mathlib

/-!
Verification of the Wings R Us recommendation system (`ayush-patel1/WWTProj`).

The Python sources are shallowly embedded:
* Python `dict`s become association lists (`List (key × value)`); an update of
  an existing key keeps its position, a new key is appended at the end, which
  is exactly the insertion-order semantics of Python dictionaries.
* Python `float` values become `ℚ`: every constant appearing in the sources
  (`0.4`, `0.3`, `0.2`, `0.1`, `0.001`, `250`, `0.01`, `0.95`, `3.5`, `1.5`,
  `5.0`, `0.05`) and every ratio of small counts is exactly representable, and
  no float rounding decides any branch in the embedded fragments.
* `datetime` timestamps become integers counted in days (`(a - b).days` is an
  exact integer difference at that granularity for the comparisons used).
* a Python method call on an attribute that does not exist on the class
  becomes an `Except String` error carrying the `AttributeError` name.
-/

namespace AssocMap

/-- Lookup in an association list, `none` when the key is absent
(Python `d[k]` / `k in d`). -/
def find? (m : List (String × α)) (k : String) : Option α :=
  match m with
  | [] => none
  | (k2, v) :: rest => if k2 = k then some v else find? rest k

/-- Lookup with a default value (Python `d.get(k, d0)`). -/
def findD (m : List (String × α)) (k : String) (d0 : α) : α :=
  (find? m k).getD d0

/-- Add `v` to the value stored at `k`, appending `(k, v)` when `k` is absent
(Python `d[k] = d.get(k, 0) + v`, and `defaultdict` accumulation). -/
def addTo (m : List (String × ℚ)) (k : String) (v : ℚ) : List (String × ℚ) :=
  match m with
  | [] => [(k, v)]
  | (k2, w) :: rest => if k2 = k then (k2, w + v) :: rest else (k2, w) :: addTo rest k v

/-- Numeric lookup with default `0`. -/
def scoreOf (m : List (String × ℚ)) (k : String) : ℚ :=
  findD m k 0

/-- Increment by one inside a nested counter map
(Python `cooccurrence[k1][k2] += 1` on a nested `defaultdict(int)`). -/
def bump (m : List (String × List (String × Nat))) (k1 k2 : String) :
    List (String × List (String × Nat)) :=
  match m with
  | [] => [(k1, [(k2, 1)])]
  | (k, inner) :: rest =>
      if k = k1 then (k, bumpInner inner k2) :: rest else (k, inner) :: bump rest k1 k2
where
  bumpInner (inner : List (String × Nat)) (k2 : String) : List (String × Nat) :=
    match inner with
    | [] => [(k2, 1)]
    | (k, c) :: rest => if k = k2 then (k, c + 1) :: rest else (k, c) :: bumpInner rest k2

/-- Nested lookup: the count stored for the pair `(k1, k2)`, `none` when either
key is absent. -/
def find2? (m : List (String × List (String × α))) (k1 k2 : String) : Option α :=
  match find? m k1 with
  | none => none
  | some inner => find? inner k2

end AssocMap

open AssocMap

/-!
## Feature Store — `src/feature_engineering.py`, class `FeatureEngineer`

The `orders` DataFrame is embedded as a list of rows, each row carrying the
`order_id` and `item_name` columns used by the feature builders.
-/

/-- One row of the orders DataFrame (columns `order_id`, `item_name`). -/
structure OrderRow where
  order_id : Nat
  item_name : String
deriving DecidableEq, Repr

namespace FeatureEngineer

/-- The attribute `self.item_cooccurrence` of `FeatureEngineer`: set to `{}` in
`__init__` (line 19) and never reassigned anywhere in the repository —
`create_features` stores the computed co-occurrence in its local `features`
dictionary only. -/
def selfItemCooccurrence : List (String × List (String × ℚ)) := []

/-- Distinct order ids, in order of first appearance.  (pandas `groupby` sorts
the group keys; the key order is irrelevant to every derived statistic and
lookup proved below, so first-appearance order is used.) -/
def orderIds (rows : List OrderRow) : List Nat :=
  (rows.map (·.order_id)).dedup

/-- The `item_name` values of the rows of one order, in row order. -/
def itemsOf (rows : List OrderRow) (oid : Nat) : List String :=
  (rows.filter (fun r => r.order_id = oid)).map (·.item_name)

/-- Embeds `orders_df.groupby('order_id')['item_name'].apply(list).to_dict()`
(lines 74 and 161). -/
def groupOrders (rows : List OrderRow) : List (Nat × List String) :=
  (orderIds rows).map (fun oid => (oid, itemsOf rows oid))

/-- Embeds `_calculate_item_frequency` (lines 50-63): `value_counts` of the
`item_name` column divided by the number of rows. -/
def calculate_item_frequency (rows : List OrderRow) : List (String × ℚ) :=
  let total : Nat := rows.length
  ((rows.map (·.item_name)).dedup).map
    (fun item => (item, ((rows.map (·.item_name)).count item : ℚ) / (total : ℚ)))

/-- The ordered pairs produced by the double loop of lines 84-88: for the
duplicate-free list `u = list(set(items))`, all pairs `(item1, item2)` with
distinct positions; on a duplicate-free list position inequality `i != j` is
value inequality. -/
def orderedPairs (u : List String) : List (String × String) :=
  u.flatMap (fun a => (u.filter (fun b => ¬(b = a))).map (fun b => (a, b)))

/-- The nested co-occurrence counters after the loop of lines 80-88. -/
def coocCounts (orders : List (Nat × List String)) :
    List (String × List (String × Nat)) :=
  orders.foldl
    (fun m o => (orderedPairs o.2.dedup).foldl (fun m2 p => bump m2 p.1 p.2) m) []

/-- The counter `total_pairs` after the loop of lines 80-88: one increment per ordered
pair of every order. -/
def totalPairs (orders : List (Nat × List String)) : Nat :=
  orders.foldl (fun t o => t + (orderedPairs o.2.dedup).length) 0

/-- Embeds `_calculate_item_cooccurrence` (lines 65-98): the pairwise counters
converted to probabilities by dividing each count by `total_pairs`
(`count / total_pairs if total_pairs > 0 else 0`, line 95). -/
def calculate_item_cooccurrence (rows : List OrderRow) :
    List (String × List (String × ℚ)) :=
  let orders := groupOrders rows
  let tp := totalPairs orders
  (coocCounts orders).map
    (fun e => (e.1, e.2.map
      (fun p => (p.1, if 0 < tp then (p.2 : ℚ) / (tp : ℚ) else 0))))

/-- The dictionary `item_support` of `_create_market_basket_rules` (lines 163-172): the
fraction of orders whose (deduplicated) item set contains the item. -/
def itemSupport (orders : List (Nat × List String)) : List (String × ℚ) :=
  let totalOrders : Nat := orders.length
  (orders.foldl (fun m o => o.2.dedup.foldl (fun m2 it => addTo m2 it 1) m) []).map
    (fun p => (p.1, p.2 / (totalOrders : ℚ)))

/-- The confidence of line 184:
`self.item_cooccurrence.get(item_a, {}).get(item_b, 0) / item_support.get(item_a, 0.001)`.
`self.item_cooccurrence` is the never-populated empty attribute. -/
def ruleConfidence (support : List (String × ℚ)) (a b : String) : ℚ :=
  ((find2? selfItemCooccurrence a b).getD 0) / (findD support a (1/1000))

/-- The rule accumulation loop of lines 175-187: a pair is appended only when
its confidence exceeds `0.1` (the `defaultdict` key is created only inside the
guard). -/
def ruleLoop (support : List (String × ℚ)) (orders : List (Nat × List String)) :
    List (String × List (String × ℚ)) :=
  orders.foldl
    (fun rules o =>
      (orderedPairs o.2.dedup).foldl
        (fun rules2 p =>
          let c := ruleConfidence support p.1 p.2
          if 1/10 < c then appendRule rules2 p.1 (p.2, c) else rules2)
        rules)
    []
where
  appendRule (rules : List (String × List (String × ℚ))) (k : String)
      (v : String × ℚ) : List (String × List (String × ℚ)) :=
    match rules with
    | [] => [(k, [v])]
    | (k2, l) :: rest =>
        if k2 = k then (k2, l ++ [v]) :: rest else (k2, l) :: appendRule rest k v

/-- Stable descending insertion by the rational component: the new pair goes in
front of the first strictly smaller value, after all earlier greater-or-equal
values (the placement produced by Python's stable `sorted(..., reverse=True)`). -/
def insertDesc (p : String × ℚ) : List (String × ℚ) → List (String × ℚ)
  | [] => [p]
  | q :: qs => if q.2 < p.2 then p :: q :: qs else q :: insertDesc p qs

/-- Embeds `sorted(l, key=lambda x: x[1], reverse=True)`: stable sort, descending by
the rational component. -/
def sortDesc (l : List (String × ℚ)) : List (String × ℚ) :=
  l.foldr insertDesc []

/-- Embeds `_create_market_basket_rules` (lines 153-194): rules accumulated over all
orders, then each item's list sorted by confidence descending and truncated to
the top 10. -/
def create_market_basket_rules (rows : List OrderRow) :
    List (String × List (String × ℚ)) :=
  let orders := groupOrders rows
  let support := itemSupport orders
  (ruleLoop support orders).map (fun e => (e.1, (sortDesc e.2).take 10))

end FeatureEngineer

/-!
## Baseline engine — `src/recommendation_engine.py`, class `RecommendationEngine`

The engine reads the engineered features through `self.features.get(...)`;
the features are embedded as a record of association lists.
-/

/-- The feature dictionary consumed by `RecommendationEngine`
(keys `item_cooccurrence`, `market_basket`, `item_categories`,
`item_frequency`). -/
structure Features where
  item_cooccurrence : List (String × List (String × ℚ))
  market_basket : List (String × List (String × ℚ))
  item_categories : List (String × String)
  item_frequency : List (String × ℚ)
deriving Repr

namespace RecommendationEngine

open FeatureEngineer (insertDesc sortDesc)

/-- The traversal order of `_get_cooccurrence_recommendations` (lines 141-153):
for each order item present in the co-occurrence map, its related entries whose
item is not excluded, in dictionary order. -/
def coocContributions (fs : Features) (order_items exclude_items : List String) :
    List (String × ℚ) :=
  order_items.flatMap (fun item =>
    match find? fs.item_cooccurrence item with
    | none => []
    | some related => related.filter (fun p => ¬ p.1 ∈ exclude_items))

/-- Embeds `_get_cooccurrence_recommendations` (lines 141-153): a `defaultdict(float)`
accumulating `score` per related item. -/
def get_cooccurrence_recommendations (fs : Features)
    (order_items exclude_items : List String) : List (String × ℚ) :=
  (coocContributions fs order_items exclude_items).foldl
    (fun m p => addTo m p.1 p.2) []

/-- The traversal order of `_get_market_basket_recommendations`
(lines 155-167). -/
def basketContributions (fs : Features) (order_items exclude_items : List String) :
    List (String × ℚ) :=
  order_items.flatMap (fun item =>
    match find? fs.market_basket item with
    | none => []
    | some rules => rules.filter (fun p => ¬ p.1 ∈ exclude_items))

/-- Embeds `_get_market_basket_recommendations` (lines 155-167): accumulates
`confidence` per related item. -/
def get_market_basket_recommendations (fs : Features)
    (order_items exclude_items : List String) : List (String × ℚ) :=
  (basketContributions fs order_items exclude_items).foldl
    (fun m p => addTo m p.1 p.2) []

/-- The fixed complementary-category table of `_get_complementary_categories`
(lines 195-200). -/
def complementaryRules : List (String × List String) :=
  [("wings", ["drinks", "sides"]),
   ("drinks", ["wings", "sides", "desserts"]),
   ("sides", ["wings", "drinks"]),
   ("desserts", ["drinks"])]

/-- Embeds `_get_complementary_categories` (lines 192-211): the union of the table
entries of the categories present in the order; defaults to
`{wings, drinks, sides}` when that union is empty.  The Python value is a set
used only through membership, so a list with possible duplicates is an
equivalent embedding. -/
def get_complementary_categories (order_categories : List String) : List String :=
  let comp := order_categories.flatMap (fun c => (find? complementaryRules c).getD [])
  if comp = [] then ["wings", "drinks", "sides"] else comp

/-- The categories of the order items that have a category entry
(lines 176-179). -/
def orderCategories (fs : Features) (order_items : List String) : List String :=
  order_items.filterMap (fun item => find? fs.item_categories item)

/-- The traversal of lines 184-188: every `(item, category)` entry of
`item_categories` with the item not excluded and the category complementary,
scored `item_frequency[item] * 0.5`. -/
def categoryContributions (fs : Features) (order_items exclude_items : List String) :
    List (String × ℚ) :=
  let comp := get_complementary_categories (orderCategories fs order_items)
  (fs.item_categories.filter
      (fun p => ¬ p.1 ∈ exclude_items ∧ p.2 ∈ comp)).map
    (fun p => (p.1, scoreOf fs.item_frequency p.1 * (0.5 : ℚ)))

/-- Embeds `_get_category_recommendations` (lines 169-190). -/
def get_category_recommendations (fs : Features)
    (order_items exclude_items : List String) : List (String × ℚ) :=
  (categoryContributions fs order_items exclude_items).foldl
    (fun m p => addTo m p.1 p.2) []

/-- Embeds `_get_popularity_recommendations` (lines 213-225): all non-excluded
`(item, frequency)` entries, sorted by frequency descending, top 10. -/
def get_popularity_recommendations (fs : Features) (exclude_items : List String) :
    List (String × ℚ) :=
  (sortDesc (fs.item_frequency.filter (fun p => ¬ p.1 ∈ exclude_items))).take 10

/-- The blended score dictionary of `_recommend_items` (lines 115-135): the
four generator outputs folded in order with weights `0.4`, `0.3`, `0.2`,
`0.1`. -/
def blendedScores (fs : Features) (order_items exclude_items : List String) :
    List (String × ℚ) :=
  let m1 := (get_cooccurrence_recommendations fs order_items exclude_items).foldl
    (fun m p => addTo m p.1 (p.2 * (0.4 : ℚ))) []
  let m2 := (get_market_basket_recommendations fs order_items exclude_items).foldl
    (fun m p => addTo m p.1 (p.2 * (0.3 : ℚ))) m1
  let m3 := (get_category_recommendations fs order_items exclude_items).foldl
    (fun m p => addTo m p.1 (p.2 * (0.2 : ℚ))) m2
  (get_popularity_recommendations fs exclude_items).foldl
    (fun m p => addTo m p.1 (p.2 * (0.1 : ℚ))) m3

/-- Embeds `_recommend_items` (lines 101-139): blended scores sorted descending,
names of the top 3. -/
def recommend_items (fs : Features) (order_items exclude_items : List String) :
    List String :=
  ((sortDesc (blendedScores fs order_items exclude_items)).take 3).map (·.1)

/-- The `while len(recs) < 3: recs.append("popular_item_fallback")` loop of
`predict` (lines 69-70), written with a structural fuel of 3: the loop body
grows the list by one, so at most 3 iterations run. -/
def padLoop : Nat → List String → List String
  | 0, recs => recs
  | fuel + 1, recs =>
      if recs.length < 3 then padLoop fuel (recs ++ ["popular_item_fallback"]) else recs

/-- The three recommendation fields built by `predict` for one test row
(lines 61-81): the blended top 3 for the row's items, padded to exactly three
entries with the fallback literal. -/
def predictRecs (fs : Features) (order_items : List String) : List String :=
  padLoop 3 (recommend_items fs order_items order_items)

/-- Every item name mentioned anywhere in the feature maps — the menu
vocabulary the generators can draw from. -/
def featureItems (fs : Features) : List String :=
  fs.item_cooccurrence.flatMap (fun e => e.1 :: e.2.map (·.1)) ++
  fs.market_basket.flatMap (fun e => e.1 :: e.2.map (·.1)) ++
  fs.item_categories.map (·.1) ++
  fs.item_frequency.map (·.1)

end RecommendationEngine

/-!
## Enhanced engine — `src/enhanced_recommendation_engine.py`,
class `EnhancedRecommendationEngine`
-/

/-- Lowercase character sequence of a string (Python `s.lower()`). -/
def lowerChars (s : String) : List Char := s.toList.map Char.toLower

/-- Contiguous-subsequence test on character lists (Python `needle in s`). -/
def hasToken (needle : List Char) : List Char → Bool
  | [] => decide (needle = [])
  | c :: rest => needle.isPrefixOf (c :: rest) || hasToken needle rest

namespace EnhancedRecommendationEngine

/-- The method names defined on class `EnhancedRecommendationEngine`
(lines 16-584), transcribed from the class body. -/
def classMethods : List String :=
  ["__init__", "analyze_customer_behavior", "create_customer_personas",
   "generate_fresh_recommendations", "measure_success", "setup_ab_testing",
   "get_user_variant", "_get_base_recommendations", "_get_trending_items",
   "_get_seasonal_items", "_get_fallback_items", "_calculate_confidence",
   "_generate_explanation", "_get_item_category", "_is_new_item",
   "_is_premium_item"]

/-- The helper method names invoked by `generate_fresh_recommendations`
(lines 323, 331, 337, 344, 369, 391, 394, 398, 403). -/
def invokedHelperNames : List String :=
  ["_get_wings_r_us_recommendations", "_ensure_category_diversity",
   "_get_wings_r_us_trending_items", "_get_wings_r_us_seasonal_items",
   "_get_wings_r_us_fallback_items", "_calculate_wings_r_us_confidence",
   "_generate_wings_r_us_explanation", "_get_wings_r_us_category",
   "_calculate_item_freshness"]

/-- The mock helper names that do exist on the class (lines 511-584). -/
def mockHelperNames : List String :=
  ["_get_base_recommendations", "_get_trending_items", "_get_seasonal_items",
   "_get_fallback_items", "_calculate_confidence", "_generate_explanation",
   "_get_item_category"]

/-- Python attribute lookup on the engine: succeeds exactly when the name is a
method of the class, otherwise raises `AttributeError`. -/
def resolveMethod (name : String) : Except String Unit :=
  if name ∈ classMethods then Except.ok () else
    Except.error ("AttributeError: " ++ name)

/-- The table `self.platform_configs` (lines 45-49), restricted to the
`max_recommendations` entry, the only one read by
`generate_fresh_recommendations`. -/
def platformConfigs : List (String × Nat) :=
  [("app", 3), ("website", 5), ("kiosk", 3)]

/-- The value `max_recs` of lines 312-314: the config for the platform key, defaulting
to the `app` config. -/
def maxRecsFor (platform : String) : Nat :=
  let platformKey := if platform = "Digital" then "app" else "kiosk"
  findD platformConfigs platformKey 3

/-- Per-customer recommendation history: customer id to list of
`(item name, timestamp in days)` pairs (`self.recommendation_history`). -/
abbrev HistoryMap := List (String × List (String × Int))

/-- The list `recent_recommendations` of lines 317-320: items of the customer's history
whose timestamp lies within the last 7 days. -/
def recentItems (hist : HistoryMap) (customer_id : String) (now : Int) :
    List String :=
  ((findD hist customer_id []).filter (fun e => now - e.2 ≤ 7)).map (·.1)

/-- One output record of `generate_fresh_recommendations` (lines 384-405),
with the `metadata` sub-dictionary flattened into fields. -/
structure RecRecord where
  item_name : String
  rank : Nat
  recommendation_type : String
  platform : String
  store_number : Option String
  customer_type : String
  confidence_score : ℚ
  explanation : String
  category : String
  is_combo : Bool
  is_wings : Bool
  is_trending : Bool
  is_seasonal : Bool
  freshness_score : ℚ
deriving Repr

/-- Modelled from the spec: the nine helper methods named in
`invokedHelperNames` are invoked by `generate_fresh_recommendations` but are
defined nowhere in the repository, so their behaviour is taken as a parameter;
the instance `specHelpers` below instantiates them following section 4.4 of
the specification. -/
structure WingsHelpers where
  baseRecs : List String → String → String → String → Option String → List String
  categoryDiversity : List String → List String → Nat → List String
  trendingItems : List String → Option String → List String
  seasonalItems : List String → List String
  fallbackItems : List String → String → Option String → List String
  sample : List String → Nat → List String
  confidence : String → List String → String → String → ℚ
  explanation : String → List String → String → String → String
  category : String → String
  freshness : String → String → ℚ

/-- The `while len(final_recs) < max_recs` backfill loop of lines 368-377,
written with a structural fuel: every iteration either breaks or grows the
list by one, so `maxRecs` iterations always suffice. -/
def fallbackLoop (H : WingsHelpers) (current_items : List String)
    (customer_type : String) (store : Option String) (maxRecs : Nat) :
    Nat → List String → List String
  | 0, acc => acc
  | fuel + 1, acc =>
      if acc.length < maxRecs then
        match H.fallbackItems (acc ++ current_items) customer_type store with
        | [] => acc
        | f :: _ =>
            fallbackLoop H current_items customer_type store maxRecs fuel (acc ++ [f])
      else acc

/-- Embeds `generate_fresh_recommendations` (lines 291-419) with the missing helper
methods supplied by `H`; `random.sample` of line 358 is `H.sample`, the
injectable random source the specification prescribes.  Returns the
recommendation records together with the customer's updated history (append
at `now`, then prune entries older than 30 days, lines 407-417).
`base_count` cannot go negative: `max_recs` is 3 for both reachable platform
keys, so the Python negative-slice corner is unreachable. -/
def generate_fresh_recommendations (H : WingsHelpers) (hist : HistoryMap)
    (customer_id : String) (current_items : List String)
    (customer_type platform : String) (store_number : Option String)
    (now : Int) : List RecRecord × List (String × Int) :=
  let maxRecs := maxRecsFor platform
  let history := findD hist customer_id []
  let recent := recentItems hist customer_id now
  let baseRecs := H.baseRecs current_items customer_id customer_type platform store_number
  let freshRecs := baseRecs.filter (fun it => ¬ it ∈ recent)
  let categoryRecs := H.categoryDiversity freshRecs current_items maxRecs
  let trendingCount := max 1 (maxRecs * 2 / 10)
  let trending := H.trendingItems (current_items ++ categoryRecs) store_number
  let seasonalCount := max 1 (maxRecs * 1 / 10)
  let seasonal := H.seasonalItems (current_items ++ categoryRecs ++ trending)
  let baseCount := maxRecs - trendingCount - seasonalCount
  let final1 := categoryRecs.take baseCount
  let final2 := final1 ++
    (if trending = [] then []
     else H.sample (trending.take (min 10 trending.length))
            (min trendingCount trending.length))
  let final3 := final2 ++ seasonal.take seasonalCount
  let finalRecs := fallbackLoop H current_items customer_type store_number maxRecs maxRecs final3
  let records := (finalRecs.take maxRecs).enum.map (fun (e : Nat × String) =>
    let item := e.2
    let recType :=
      if item ∈ trending then "trending"
      else if item ∈ seasonal then "seasonal" else "personalized"
    ({ item_name := item,
       rank := e.1 + 1,
       recommendation_type := recType,
       platform := platform,
       store_number := store_number,
       customer_type := customer_type,
       confidence_score := H.confidence item current_items customer_id customer_type,
       explanation := H.explanation item current_items recType customer_type,
       category := H.category item,
       is_combo := hasToken "combo".toList (lowerChars item),
       is_wings := hasToken "wing".toList (lowerChars item),
       is_trending := decide (item ∈ trending),
       is_seasonal := decide (item ∈ seasonal),
       freshness_score := H.freshness item customer_id } : RecRecord))
  let appended := history ++ records.map (fun r => (r.item_name, now))
  (records, appended.filter (fun e => now - 30 < e.2))

/-- Embeds `generate_fresh_recommendations` exactly as the class defines it: the body
runs lines 309-320 (platform config, history window) and then performs the
attribute lookup of line 323 on `self`; the looked-up method has no definition
in the repository, so execution cannot proceed past a successful lookup. -/
def generate_fresh_recommendations_lookup (hist : HistoryMap)
    (customer_id : String) (_current_items : List String)
    (_customer_type platform : String) (_store_number : Option String)
    (now : Int) : Except String (List RecRecord) := do
  let _maxRecs := maxRecsFor platform
  let _recent := recentItems hist customer_id now
  resolveMethod "_get_wings_r_us_recommendations"
  Except.error "the body of _get_wings_r_us_recommendations is absent from the repository"

end EnhancedRecommendationEngine

namespace EnhancedRecommendationEngine

/-- Modelled from the spec: one sweep of the category round-robin of section
4.4 step 3 — walk the scored list in order, taking each item whose category
has not yet been taken in this sweep, and return the taken items together
with the remaining ones. -/
def diversityPass (catOf : String → String) :
    List String → List String → List String × List String
  | [], _ => ([], [])
  | x :: xs, seen =>
      if catOf x ∈ seen then
        let pr := diversityPass catOf xs seen
        (pr.1, x :: pr.2)
      else
        let pr := diversityPass catOf xs (catOf x :: seen)
        (x :: pr.1, pr.2)

/-- Modelled from the spec: repeated round-robin sweeps (section 4.4 step 3)
until the list is exhausted; the fuel is the list length, enough because every
sweep of a non-empty list takes at least its first element. -/
def roundRobin (catOf : String → String) : Nat → List String → List String
  | 0, _ => []
  | _, [] => []
  | fuel + 1, l =>
      let pr := diversityPass catOf l []
      pr.1 ++ roundRobin catOf fuel pr.2

/-- Modelled from the spec: `_ensure_category_diversity` is missing from the
code; per section 4.4 step 3 it greedily takes the highest-scored item per
category round-robin from the freshness-filtered list until the target pool
is built or the list is exhausted. -/
def ensure_category_diversity (catOf : String → String) (l : List String)
    (n : Nat) : List String :=
  (roundRobin catOf l.length l).take n

/-- The data a concrete helper instance draws from: engineered features, a
trending pool, the current month's seasonal items, and the fixed fallback
list. -/
structure WingsData where
  features : Features
  trendingPool : List String
  seasonalPool : List String
  fallbackPool : List String

/-- Category of an item, `other` when the taxonomy has no entry
(section 4.1 `categorize`). -/
def categoryOf (fs : Features) (item : String) : String :=
  findD fs.item_categories item "other"

/-- Modelled from the spec: a concrete instance of the nine missing helpers,
following section 4.4 — base candidates from the section 4.2/4.3 blended
scorer, trending/seasonal/fallback pools filtered by the exclusion list the
caller passes, and a deterministic head-of-pool stand-in for the injectable
random source (one possible outcome of `random.sample`). -/
def specHelpers (d : WingsData) : WingsHelpers :=
  { baseRecs := fun cur _cid _ctype _platform _store =>
      RecommendationEngine.recommend_items d.features cur cur,
    categoryDiversity := fun fresh _cur n =>
      ensure_category_diversity (categoryOf d.features) fresh n,
    trendingItems := fun exclude _store =>
      d.trendingPool.filter (fun it => ¬ it ∈ exclude),
    seasonalItems := fun exclude => d.seasonalPool.filter (fun it => ¬ it ∈ exclude),
    fallbackItems := fun exclude _ctype _store =>
      d.fallbackPool.filter (fun it => ¬ it ∈ exclude),
    sample := fun pool k => pool.take k,
    confidence := fun _ _ _ _ => 4/5,
    explanation := fun item _ recType _ => recType ++ ": " ++ item,
    category := fun item => categoryOf d.features item,
    freshness := fun _ _ => 1 }

end EnhancedRecommendationEngine

/-!
## Success metrics — `src/enhanced_recommendation_engine.py`,
class `PilotTestingFramework.measure_success_metrics` (lines 654-773)
-/

namespace PilotTestingFramework

/-- One generated recommendation as read by `measure_success_metrics`
(`r.get('item_name', '')`, `r.get('category', '')`). -/
structure RecInput where
  item_name : String
  category : String
deriving DecidableEq, Repr

/-- One user interaction event (`i.get('action')`, `i.get('item_name', '')`,
`i.get('order_value', 0)`, `i.get('item_price', 0)`), with the `get` defaults
baked into the fields. -/
structure Interaction where
  action : String
  item_name : String
  order_value : ℚ
  item_price : ℚ
deriving DecidableEq, Repr

/-- The metrics dictionary: one field per key of the dictionary initialized
in lines 668-701. -/
structure SuccessMetrics where
  recommendation_adoption_rate : ℚ
  average_order_value_lift : ℚ
  basket_size_increase_items : ℚ
  revenue_per_recommendation : ℚ
  upsell_success_rate : ℚ
  click_through_rate : ℚ
  add_to_cart_rate : ℚ
  conversion_rate : ℚ
  recommendation_interaction_time : ℚ
  customer_satisfaction_score : ℚ
  recommendation_accuracy : ℚ
  response_time_ms : ℚ
  personalization_effectiveness : ℚ
  freshness_score : ℚ
  cross_platform_consistency : ℚ
  combo_completion_rate : ℚ
  premium_item_upsell_rate : ℚ
  category_diversification : ℚ
  repeat_recommendation_avoidance : ℚ
  complaint_rate : ℚ
  order_abandonment_impact : ℚ
  staff_productivity_impact : ℚ
  system_error_rate : ℚ

/-- The all-zero initialization of lines 668-701. -/
def initMetrics : SuccessMetrics :=
  { recommendation_adoption_rate := 0, average_order_value_lift := 0,
    basket_size_increase_items := 0, revenue_per_recommendation := 0,
    upsell_success_rate := 0, click_through_rate := 0, add_to_cart_rate := 0,
    conversion_rate := 0, recommendation_interaction_time := 0,
    customer_satisfaction_score := 0, recommendation_accuracy := 0,
    response_time_ms := 0, personalization_effectiveness := 0,
    freshness_score := 0, cross_platform_consistency := 0,
    combo_completion_rate := 0, premium_item_upsell_rate := 0,
    category_diversification := 0, repeat_recommendation_avoidance := 0,
    complaint_rate := 0, order_abandonment_impact := 0,
    staff_productivity_impact := 0, system_error_rate := 0 }

/-- Embeds `measure_success_metrics` (lines 654-773).  `baseline` models the optional
`baseline_data` argument restricted to its only read key `baseline_aov`
(`none` covers both `None` and a dictionary without that key).  The early
return of lines 704-706 fires when either input list is empty; afterwards the
assignments of lines 715-770 are applied in source order. -/
def measure_success_metrics (recs : List RecInput) (inters : List Interaction)
    (baseline : Option ℚ) : SuccessMetrics :=
  if recs = [] ∨ inters = [] then initMetrics else
  let totalRecs : Nat := recs.length
  let totalInters : Nat := inters.length
  let purchases := inters.filter (fun i => i.action = "purchase")
  let clicks := inters.filter (fun i => i.action = "click")
  let adds := inters.filter (fun i => i.action = "add_to_cart")
  let adoption := (purchases.length : ℚ) / (totalRecs : ℚ)
  let ctr := (clicks.length : ℚ) / (totalRecs : ℚ)
  let atc := (adds.length : ℚ) / (totalRecs : ℚ)
  let conversion :=
    if 0 < clicks.length then (purchases.length : ℚ) / (clicks.length : ℚ) else 0
  let aovLift :=
    match baseline with
    | none => 0
    | some b =>
        let curAov := (inters.map (·.order_value)).sum / (totalInters : ℚ)
        if 0 < b then (curAov - b) / b else 0
  let comboInters := inters.filter
    (fun i => hasToken "combo".toList (lowerChars i.item_name))
  let comboRate :=
    if 0 < totalInters then (comboInters.length : ℚ) / (totalInters : ℚ) else 0
  let avgPrice := (inters.map (·.item_price)).sum / (totalInters : ℚ)
  let premium := purchases.filter (fun i => avgPrice < i.item_price)
  let premiumRate :=
    if 0 < purchases.length then (premium.length : ℚ) / (purchases.length : ℚ)
    else 0
  let uniqueCats := ((recs.map (·.category)).dedup).length
  let catDiv := (uniqueCats : ℚ) / 10
  let recItems := recs.map (·.item_name)
  let repeatAvoid :=
    if recItems = [] then 0 else (recItems.dedup.length : ℚ) / (recItems.length : ℚ)
  let satisfaction :=
    if ¬ purchases = [] then min 5 ((3.5 : ℚ) + adoption * (1.5 : ℚ)) else 0
  let accuracy := if ¬ purchases = [] then adoption else 0
  let complaint := max 0 ((0.05 : ℚ) - satisfaction * (0.01 : ℚ))
  { initMetrics with
    recommendation_adoption_rate := adoption,
    click_through_rate := ctr,
    add_to_cart_rate := atc,
    conversion_rate := conversion,
    average_order_value_lift := aovLift,
    combo_completion_rate := comboRate,
    premium_item_upsell_rate := premiumRate,
    category_diversification := catDiv,
    repeat_recommendation_avoidance := repeatAvoid,
    response_time_ms := 250,
    system_error_rate := (0.01 : ℚ),
    cross_platform_consistency := (0.95 : ℚ),
    recommendation_accuracy := accuracy,
    customer_satisfaction_score := satisfaction,
    complaint_rate := complaint }

end PilotTestingFramework

/-!
## Auxiliary definitions for the proofs: derived counts, the sort's order
relation, the spec-words confidence, and the concrete inputs of the
counterexample and witnesses
-/

namespace AssocMap

/-- Total score carried by the entries of key `k` in a contribution list. -/
def sumFor (l : List (String × ℚ)) (k : String) : ℚ :=
  ((l.filter (fun p => p.1 = k)).map (·.2)).sum

/-- Occurrences of the pair `(x, y)` in a pair list. -/
def pairCount (ps : List (String × String)) (x y : String) : Nat :=
  ps.countP (fun p => decide (p = (x, y)))

end AssocMap

namespace FeatureEngineer

/-- The descending-by-score order the sort establishes. -/
def scoreGE (p q : String × ℚ) : Prop := q.2 ≤ p.2

/-- Total number of `(x, y)` increments over all orders. -/
def totalCnt (orders : List (Nat × List String)) (x y : String) : Nat :=
  (orders.map (fun o => pairCount (orderedPairs o.2.dedup) x y)).sum

/-- Number of orders whose item list contains both `x` and `y`. -/
def bothCount (orders : List (Nat × List String)) (x y : String) : Nat :=
  orders.countP (fun o => decide (x ∈ o.2 ∧ y ∈ o.2))

/-- Four order rows: orders 1 and 2 each contain `Wings` and `Fries`. -/
def demoOrders : List OrderRow :=
  [⟨1, "Wings"⟩, ⟨1, "Fries"⟩, ⟨2, "Wings"⟩, ⟨2, "Fries"⟩]

/-- Definition following the specification's words (section 4.1 market-basket
rules): `confidence(a→b) = cooccurrence(a,b) / support(a)`, with co-occurrence
and support computed from the same order collection — the quantity line 184
intends but computes from the never-populated `self.item_cooccurrence`. -/
def specRuleConfidence (rows : List OrderRow) (a b : String) : ℚ :=
  ((find2? (calculate_item_cooccurrence rows) a b).getD 0)
    / scoreOf (itemSupport (groupOrders rows)) a

end FeatureEngineer

namespace EnhancedRecommendationEngine

/-- The base personalized slots drawn from the category-diversity pool:
`category_recommendations[:base_count]` of line 353, recomputed from the same
inputs as `generate_fresh_recommendations`. -/
def personalizedPrefix (H : WingsHelpers) (hist : HistoryMap) (cid : String)
    (cur : List String) (_ctype platform : String) (_store : Option String)
    (now : Int) : List String :=
  let maxRecs := maxRecsFor platform
  let recent := recentItems hist cid now
  let baseRecs := H.baseRecs cur cid _ctype platform _store
  let freshRecs := baseRecs.filter (fun it => ¬ it ∈ recent)
  let categoryRecs := H.categoryDiversity freshRecs cur maxRecs
  let trendingCount := max 1 (maxRecs * 2 / 10)
  let seasonalCount := max 1 (maxRecs * 1 / 10)
  categoryRecs.take (maxRecs - trendingCount - seasonalCount)

/-- A feature table with all four maps empty. -/
def emptyFeatures : Features :=
  { item_cooccurrence := [], market_basket := [], item_categories := [],
    item_frequency := [] }

/-- The concrete helper data of the counterexample run: the three trending
items of `_get_trending_items` (lines 517-524), no seasonal items, and the
three fallback items of `_get_fallback_items` (lines 542-548). -/
def demoData : WingsData :=
  { features := emptyFeatures,
    trendingPool := ["Honey BBQ Wings", "Spicy Chicken Sandwich", "Buffalo Cauliflower"],
    seasonalPool := [],
    fallbackPool := ["Buffalo Wings", "French Fries", "Soft Drink"] }

/-- The spec-modelled helpers instantiated at the counterexample data. -/
def demoHelpers : WingsHelpers := specHelpers demoData

/-- The current time of the counterexample run, in days. -/
def demoNow : Int := 1000

/-- Customer `c1` was recommended `Honey BBQ Wings` two days before
`demoNow`. -/
def demoHist : HistoryMap := [("c1", [("Honey BBQ Wings", 998)])]

end EnhancedRecommendationEngine

namespace PilotTestingFramework

/-- Ten recommendation records. -/
def demoRecs10 : List RecInput :=
  [⟨"R1", ""⟩, ⟨"R2", ""⟩, ⟨"R3", ""⟩, ⟨"R4", ""⟩, ⟨"R5", ""⟩,
   ⟨"R6", ""⟩, ⟨"R7", ""⟩, ⟨"R8", ""⟩, ⟨"R9", ""⟩, ⟨"R10", ""⟩]

/-- Three purchase events for item `X`. -/
def demoPurchase3 : List Interaction :=
  [⟨"purchase", "X", 0, 0⟩, ⟨"purchase", "X", 0, 0⟩, ⟨"purchase", "X", 0, 0⟩]

end PilotTestingFramework

/-!
## Lemmas about the association-map primitives
-/

namespace AssocMap

theorem sumFor_nil (k : String) : sumFor [] k = 0 := rfl

theorem sumFor_cons (p : String × ℚ) (l : List (String × ℚ)) (k : String) :
    sumFor (p :: l) k = (if p.1 = k then p.2 else 0) + sumFor l k := by
  by_cases h : p.1 = k <;> simp [sumFor, h]

theorem scoreOf_nil (k : String) : scoreOf [] k = 0 := rfl

theorem scoreOf_cons (k2 : String) (w : ℚ) (r : List (String × ℚ)) (k : String) :
    scoreOf ((k2, w) :: r) k = if k2 = k then w else scoreOf r k := by
  by_cases h : k2 = k <;> simp [scoreOf, findD, find?, h]

theorem scoreOf_addTo (m : List (String × ℚ)) (k : String) (v : ℚ) (k' : String) :
    scoreOf (addTo m k v) k' = scoreOf m k' + (if k = k' then v else 0) := by
  induction m with
  | nil =>
      by_cases h : k = k' <;> simp [addTo, scoreOf_cons, scoreOf_nil, h]
  | cons hd tl ih =>
      obtain ⟨k2, w⟩ := hd
      by_cases h2 : k2 = k
      · subst h2
        by_cases h : k2 = k' <;> simp [addTo, scoreOf_cons, h, add_comm]
      · have h4 : addTo ((k2, w) :: tl) k v = (k2, w) :: addTo tl k v := by
          simp [addTo, h2]
        rw [h4]
        by_cases h : k2 = k'
        · have h3 : ¬ k = k' := by
            rw [← h]; intro hh; exact h2 hh.symm
          simp [scoreOf_cons, h, h3]
        · simp [scoreOf_cons, h, ih]

theorem scoreOf_foldl_addTo (l : List (String × ℚ)) (m : List (String × ℚ))
    (k : String) :
    scoreOf (l.foldl (fun m2 p => addTo m2 p.1 p.2) m) k = scoreOf m k + sumFor l k := by
  induction l generalizing m with
  | nil => simp [sumFor_nil]
  | cons p l ih =>
      rw [List.foldl_cons, ih, scoreOf_addTo, sumFor_cons]
      by_cases h : p.1 = k <;> simp [h] <;> ring

theorem sumFor_map_mul (l : List (String × ℚ)) (w : ℚ) (k : String) :
    sumFor (l.map (fun p => (p.1, p.2 * w))) k = sumFor l k * w := by
  induction l with
  | nil => simp [sumFor_nil]
  | cons p l ih =>
      rw [List.map_cons, sumFor_cons, sumFor_cons, ih]
      by_cases h : p.1 = k <;> simp [h] <;> ring

theorem scoreOf_foldl_addTo_mul (l : List (String × ℚ)) (w : ℚ)
    (m : List (String × ℚ)) (k : String) :
    scoreOf (l.foldl (fun m2 p => addTo m2 p.1 (p.2 * w)) m) k
      = scoreOf m k + sumFor l k * w := by
  have hmap : l.foldl (fun m2 p => addTo m2 p.1 (p.2 * w)) m
      = (l.map (fun p => (p.1, p.2 * w))).foldl (fun m2 p => addTo m2 p.1 p.2) m := by
    rw [List.foldl_map]
  rw [hmap, scoreOf_foldl_addTo, sumFor_map_mul]

theorem mem_keys_addTo (m : List (String × ℚ)) (k : String) (v : ℚ) (k' : String) :
    k' ∈ (addTo m k v).map (·.1) ↔ k' ∈ m.map (·.1) ∨ k' = k := by
  induction m with
  | nil => simp [addTo]
  | cons hd tl ih =>
      obtain ⟨k2, w⟩ := hd
      by_cases h2 : k2 = k
      · subst h2
        simp [addTo]
        tauto
      · simp only [addTo, if_neg h2, List.map_cons, List.mem_cons, ih]
        tauto

theorem mem_keys_foldl_addTo (l : List (String × ℚ)) (m : List (String × ℚ))
    (k' : String) :
    k' ∈ (l.foldl (fun m2 p => addTo m2 p.1 p.2) m).map (·.1) ↔
      k' ∈ m.map (·.1) ∨ k' ∈ l.map (·.1) := by
  induction l generalizing m with
  | nil => simp
  | cons p l ih =>
      rw [List.foldl_cons, ih]
      rw [mem_keys_addTo]
      simp only [List.map_cons, List.mem_cons]
      tauto

theorem mem_keys_foldl_addTo_mul (l : List (String × ℚ)) (w : ℚ)
    (m : List (String × ℚ)) (k' : String) :
    k' ∈ (l.foldl (fun m2 p => addTo m2 p.1 (p.2 * w)) m).map (·.1) ↔
      k' ∈ m.map (·.1) ∨ k' ∈ l.map (·.1) := by
  have hmap : l.foldl (fun m2 p => addTo m2 p.1 (p.2 * w)) m
      = (l.map (fun p => (p.1, p.2 * w))).foldl (fun m2 p => addTo m2 p.1 p.2) m := by
    rw [List.foldl_map]
  rw [hmap, mem_keys_foldl_addTo]
  simp

end AssocMap

namespace FeatureEngineer

theorem mem_insertDesc {x p : String × ℚ} {l : List (String × ℚ)} :
    x ∈ insertDesc p l ↔ x = p ∨ x ∈ l := by
  induction l with
  | nil => simp [insertDesc]
  | cons q qs ih =>
      by_cases h : q.2 < p.2
      · simp [insertDesc, h]
      · simp [insertDesc, h, ih]
        tauto

theorem sorted_insertDesc {p : String × ℚ} {l : List (String × ℚ)}
    (hl : List.Sorted scoreGE l) : List.Sorted scoreGE (insertDesc p l) := by
  induction l with
  | nil => simp [insertDesc, List.Sorted]
  | cons q qs ih =>
      have hq : ∀ x ∈ qs, scoreGE q x := (List.pairwise_cons.mp hl).1
      have hqs : List.Sorted scoreGE qs := (List.pairwise_cons.mp hl).2
      by_cases h : q.2 < p.2
      · rw [insertDesc, if_pos h]
        refine List.pairwise_cons.mpr ⟨?_, hl⟩
        intro x hx
        rcases List.mem_cons.mp hx with hx | hx
        · subst hx; exact le_of_lt h
        · exact le_trans (hq x hx) (le_of_lt h)
      · rw [insertDesc, if_neg h]
        refine List.pairwise_cons.mpr ⟨?_, ih hqs⟩
        intro x hx
        rcases mem_insertDesc.mp hx with hx | hx
        · subst hx; exact le_of_not_lt h
        · exact hq x hx

theorem sorted_sortDesc (l : List (String × ℚ)) :
    List.Sorted scoreGE (sortDesc l) := by
  induction l with
  | nil => simp [sortDesc, List.Sorted]
  | cons p l ih => exact sorted_insertDesc ih

theorem mem_sortDesc {x : String × ℚ} {l : List (String × ℚ)} :
    x ∈ sortDesc l ↔ x ∈ l := by
  induction l with
  | nil => simp [sortDesc]
  | cons p l ih =>
      show x ∈ insertDesc p (sortDesc l) ↔ _
      rw [mem_insertDesc, ih]
      simp

theorem sorted_take_drop {l : List (String × ℚ)} (h : List.Sorted scoreGE l)
    (n : Nat) :
    ∀ x ∈ l.take n, ∀ y ∈ l.drop n, scoreGE x y := by
  intro x hx y hy
  have hsplit : l.take n ++ l.drop n = l := List.take_append_drop n l
  have : List.Pairwise scoreGE (l.take n ++ l.drop n) := by
    rw [hsplit]; exact h
  exact ((List.pairwise_append.mp this).2.2) x hx y hy

end FeatureEngineer

namespace AssocMap

theorem find?_bumpInner (inner : List (String × Nat)) (k2 x : String) :
    find? (bump.bumpInner inner k2) x
      = if k2 = x then some ((find? inner x).getD 0 + 1) else find? inner x := by
  induction inner with
  | nil =>
      by_cases h : k2 = x <;> simp [bump.bumpInner, find?, h]
  | cons hd rest ih =>
      obtain ⟨k, c⟩ := hd
      by_cases hk : k = k2
      · subst hk
        by_cases h : k = x <;> simp [bump.bumpInner, find?, h]
      · by_cases h : k = x
        · subst h
          have h2 : ¬ k2 = k := fun hh => hk hh.symm
          simp [bump.bumpInner, hk, find?, h2]
        · simp [bump.bumpInner, hk, find?, h, ih]

theorem find2?_bump (m : List (String × List (String × Nat))) (k1 k2 x y : String) :
    find2? (bump m k1 k2) x y
      = if k1 = x ∧ k2 = y then some ((find2? m x y).getD 0 + 1)
        else find2? m x y := by
  induction m with
  | nil =>
      by_cases h1 : k1 = x
      · subst h1
        by_cases h2 : k2 = y <;> simp [bump, find2?, find?, find?_bumpInner, h2]
      · simp [bump, find2?, find?, h1]
  | cons hd rest ih =>
      obtain ⟨k, inner⟩ := hd
      by_cases hk : k = k1
      · subst hk
        by_cases h1 : k = x
        · subst h1
          by_cases h2 : k2 = y <;>
            simp [bump, find2?, find?, find?_bumpInner, h2]
        · simp [bump, find2?, find?, h1]
      · by_cases h1 : k = x
        · subst h1
          have hne : ¬ k1 = k := fun hh => hk hh.symm
          simp [bump, find2?, find?, hk, hne]
        · simp only [bump, if_neg hk]
          simp only [find2?, find?, if_neg h1]
          exact ih

theorem pairCount_nil (x y : String) : pairCount [] x y = 0 := rfl

theorem pairCount_cons (p : String × String) (ps : List (String × String))
    (x y : String) :
    pairCount (p :: ps) x y = pairCount ps x y + (if p = (x, y) then 1 else 0) := by
  by_cases h : p = (x, y) <;> simp [pairCount, List.countP_cons, h]

theorem find2?_foldl_bump (ps : List (String × String))
    (m : List (String × List (String × Nat))) (x y : String) :
    find2? (ps.foldl (fun m2 p => bump m2 p.1 p.2) m) x y
      = if pairCount ps x y = 0 then find2? m x y
        else some ((find2? m x y).getD 0 + pairCount ps x y) := by
  induction ps generalizing m with
  | nil => simp [pairCount_nil]
  | cons p ps ih =>
      rw [List.foldl_cons, ih, find2?_bump, pairCount_cons]
      by_cases hp : p = (x, y)
      · have hp1 : p.1 = x ∧ p.2 = y := by
          rw [hp]; exact ⟨rfl, rfl⟩
        by_cases hc : pairCount ps x y = 0 <;>
          simp [hp, hp1, hc] <;> omega
      · have hp1 : ¬ (p.1 = x ∧ p.2 = y) := by
          intro hh
          exact hp (Prod.ext hh.1 hh.2)
        by_cases hc : pairCount ps x y = 0 <;> simp [hp, hp1, hc]

theorem countP_flatMap_sum {α β : Type} (p : β → Bool) (f : α → List β)
    (l : List α) :
    List.countP p (l.flatMap f) = (l.map (fun a => List.countP p (f a))).sum := by
  induction l with
  | nil => simp
  | cons a l ih => simp [List.countP_append, ih]

end AssocMap

namespace FeatureEngineer

theorem countP_eq_of_nodup (u : List String) (hu : u.Nodup) (y : String) :
    List.countP (fun b => decide (b = y)) u = if y ∈ u then 1 else 0 := by
  induction u with
  | nil => simp
  | cons x u ih =>
      have hx : x ∉ u := (List.nodup_cons.mp hu).1
      have hu2 : u.Nodup := (List.nodup_cons.mp hu).2
      rw [List.countP_cons]
      by_cases hxy : x = y
      · subst hxy
        have : x ∉ u := hx
        rw [ih hu2, if_neg this]
        simp
      · have hmem : y ∈ x :: u ↔ y ∈ u := by
          simp [List.mem_cons]
          intro h
          exact absurd h.symm hxy
        rw [ih hu2]
        by_cases hy : y ∈ u <;> simp [hy, hxy, hmem]

theorem pairCount_block (u : List String) (hu : u.Nodup) (a x y : String) :
    pairCount ((u.filter (fun b => ¬(b = a))).map (fun b => (a, b))) x y
      = if a = x then (if y ∈ u ∧ ¬ y = x then 1 else 0) else 0 := by
  rw [pairCount, List.countP_map]
  by_cases hax : a = x
  · subst hax
    have hcongr : ∀ b ∈ u.filter (fun b => ¬(b = a)),
        (((fun p => decide (p = (a, y))) ∘ (fun b => (a, b))) b = true
          ↔ (fun b => decide (b = y)) b = true) := by
      intro b _
      simp [Prod.ext_iff]
    rw [List.countP_congr hcongr, List.countP_filter]
    by_cases hya : y = a
    · subst hya
      have : List.countP (fun b => decide (b = y) && decide ¬(b = y)) u = 0 := by
        apply List.countP_eq_zero.mpr
        intro b _
        by_cases hb : b = y <;> simp [hb]
      rw [this]
      simp
    · have hcongr2 : ∀ b ∈ u,
          ((fun b => decide (b = y) && decide ¬(b = a)) b = true
            ↔ (fun b => decide (b = y)) b = true) := by
        intro b _
        by_cases hb : b = y
        · subst hb
          simp [hya]
        · simp [hb]
      rw [List.countP_congr hcongr2, countP_eq_of_nodup u hu y]
      by_cases hy : y ∈ u <;> simp [hy, hya]
  · have : List.countP ((fun p => decide (p = (x, y))) ∘ (fun b => (a, b)))
        (u.filter (fun b => ¬(b = a))) = 0 := by
      apply List.countP_eq_zero.mpr
      intro b _
      simp [Prod.ext_iff]
      intro h
      exact absurd h hax
    rw [this, if_neg hax]

theorem sum_map_ite (u : List String) (hu : u.Nodup) (x : String) (c : Nat) :
    (u.map (fun a => if a = x then c else 0)).sum = if x ∈ u then c else 0 := by
  induction u with
  | nil => simp
  | cons b u ih =>
      have hb : b ∉ u := (List.nodup_cons.mp hu).1
      have hu2 : u.Nodup := (List.nodup_cons.mp hu).2
      rw [List.map_cons, List.sum_cons, ih hu2]
      by_cases hbx : b = x
      · subst hbx
        rw [if_pos rfl, if_neg hb, if_pos (List.mem_cons_self b u)]
        omega
      · have hmem : x ∈ b :: u ↔ x ∈ u := by
          simp [List.mem_cons]
          intro h
          exact absurd h.symm hbx
        by_cases hx : x ∈ u <;> simp [hbx, hx, hmem]

theorem pairCount_orderedPairs (u : List String) (hu : u.Nodup) (x y : String) :
    pairCount (orderedPairs u) x y
      = if x ∈ u ∧ y ∈ u ∧ ¬ x = y then 1 else 0 := by
  have h1 : pairCount (orderedPairs u) x y
      = (u.map (fun a =>
          pairCount ((u.filter (fun b => ¬(b = a))).map (fun b => (a, b))) x y)).sum := by
    rw [orderedPairs, pairCount, countP_flatMap_sum]
    rfl
  have h2 : (u.map (fun a =>
      pairCount ((u.filter (fun b => ¬(b = a))).map (fun b => (a, b))) x y)).sum
        = (u.map (fun a =>
            if a = x then (if y ∈ u ∧ ¬ y = x then 1 else 0) else 0)).sum := by
    congr 1
    apply List.map_congr_left
    intro a _
    exact pairCount_block u hu a x y
  rw [h1, h2, sum_map_ite u hu x _]
  by_cases hx : x ∈ u
  · by_cases hy : y ∈ u
    · by_cases hxy : x = y
      · subst hxy
        simp [hx, hy]
      · have hyx : ¬ y = x := fun h => hxy h.symm
        simp [hx, hy, hxy, hyx]
    · simp [hx, hy]
  · simp [hx]

theorem find2?_coocFold (orders : List (Nat × List String))
    (m : List (String × List (String × Nat))) (x y : String) :
    find2? (orders.foldl
      (fun mm o => (orderedPairs o.2.dedup).foldl (fun m2 p => bump m2 p.1 p.2) mm) m) x y
      = if totalCnt orders x y = 0 then find2? m x y
        else some ((find2? m x y).getD 0 + totalCnt orders x y) := by
  induction orders generalizing m with
  | nil => simp [totalCnt]
  | cons o os ih =>
      rw [List.foldl_cons, ih, find2?_foldl_bump]
      have htc : totalCnt (o :: os) x y
          = pairCount (orderedPairs o.2.dedup) x y + totalCnt os x y := by
        simp [totalCnt]
      by_cases h1 : pairCount (orderedPairs o.2.dedup) x y = 0
      · by_cases h2 : totalCnt os x y = 0 <;> simp [htc, h1, h2]
      · by_cases h2 : totalCnt os x y = 0
        · have h3 : ¬ totalCnt (o :: os) x y = 0 := by omega
          simp [htc, h1, h2, h3]
        · have h3 : ¬ totalCnt (o :: os) x y = 0 := by omega
          simp [htc, h1, h2, h3]
          omega

theorem find2?_coocCounts (orders : List (Nat × List String)) (x y : String) :
    find2? (coocCounts orders) x y
      = if totalCnt orders x y = 0 then none else some (totalCnt orders x y) := by
  rw [coocCounts, find2?_coocFold]
  have hnil : (find2? ([] : List (String × List (String × Nat))) x y) = none := rfl
  by_cases h : totalCnt orders x y = 0 <;> simp [h, hnil]

theorem totalCnt_eq_bothCount (orders : List (Nat × List String)) (x y : String)
    (hxy : ¬ x = y) : totalCnt orders x y = bothCount orders x y := by
  induction orders with
  | nil => rfl
  | cons o os ih =>
      have hpc : pairCount (orderedPairs o.2.dedup) x y
          = if x ∈ o.2 ∧ y ∈ o.2 then 1 else 0 := by
        rw [pairCount_orderedPairs o.2.dedup (List.nodup_dedup o.2) x y]
        by_cases hx : x ∈ o.2 <;> by_cases hy : y ∈ o.2 <;>
          simp [List.mem_dedup, hx, hy, hxy]
      have h1 : totalCnt (o :: os) x y
          = pairCount (orderedPairs o.2.dedup) x y + totalCnt os x y := by
        simp [totalCnt]
      rw [h1, hpc, ih]
      show _ = (o :: os).countP (fun o => decide (x ∈ o.2 ∧ y ∈ o.2))
      rw [List.countP_cons]
      by_cases h : x ∈ o.2 ∧ y ∈ o.2 <;> simp [h, bothCount] <;> omega

theorem foldl_add_eq_sum {α : Type} (l : List α) (g : α → Nat) (init : Nat) :
    l.foldl (fun t o => t + g o) init = init + (l.map g).sum := by
  induction l generalizing init with
  | nil => simp
  | cons a l ih =>
      rw [List.foldl_cons, ih, List.map_cons, List.sum_cons]
      omega

theorem totalCnt_le_totalPairs (orders : List (Nat × List String)) (x y : String) :
    totalCnt orders x y ≤ totalPairs orders := by
  rw [totalPairs, foldl_add_eq_sum, Nat.zero_add, totalCnt]
  apply List.sum_le_sum
  intro o _
  exact List.countP_le_length _

theorem find?_map_snd {α β : Type} (m : List (String × α)) (g : α → β)
    (x : String) :
    find? (m.map (fun e => (e.1, g e.2))) x = (find? m x).map g := by
  induction m with
  | nil => rfl
  | cons e m ih =>
      by_cases h : e.1 = x <;> simp [find?, h, ih]

theorem find2?_map_inner {α β : Type} (m : List (String × List (String × α)))
    (g : α → β) (x y : String) :
    find2? (m.map (fun e => (e.1, e.2.map (fun p => (p.1, g p.2))))) x y
      = (find2? m x y).map g := by
  induction m with
  | nil => rfl
  | cons e m ih =>
      by_cases h : e.1 = x
      · simp [find2?, find?, h, find?_map_snd]
      · simp only [List.map_cons]
        simp only [find2?, find?, if_neg h] at ih ⊢
        exact ih

end FeatureEngineer

namespace FeatureEngineer

theorem sumFor_const_one (u : List String) (hu : u.Nodup) (k : String) :
    sumFor (u.map (fun s => (s, (1 : ℚ)))) k = if k ∈ u then 1 else 0 := by
  induction u with
  | nil => simp [sumFor_nil]
  | cons b u ih =>
      have hb : b ∉ u := (List.nodup_cons.mp hu).1
      have hu2 : u.Nodup := (List.nodup_cons.mp hu).2
      rw [List.map_cons, sumFor_cons, ih hu2]
      by_cases hbk : b = k
      · subst hbk
        rw [if_pos rfl, if_neg hb, if_pos (List.mem_cons_self b u)]
        norm_num
      · have hmem : k ∈ b :: u ↔ k ∈ u := by
          simp [List.mem_cons]
          intro h
          exact absurd h.symm hbk
        by_cases hk : k ∈ u <;> simp [hbk, hk, hmem]

theorem scoreOf_supportFold (orders : List (Nat × List String))
    (m : List (String × ℚ)) (it : String) :
    scoreOf (orders.foldl
        (fun mm o => o.2.dedup.foldl (fun m2 s => addTo m2 s 1) mm) m) it
      = scoreOf m it + ((orders.countP (fun o => decide (it ∈ o.2)) : Nat) : ℚ) := by
  induction orders generalizing m with
  | nil => simp
  | cons o os ih =>
      rw [List.foldl_cons, ih]
      have hinner : o.2.dedup.foldl (fun m2 s => addTo m2 s 1) m
          = (o.2.dedup.map (fun s => (s, (1 : ℚ)))).foldl
              (fun m2 p => addTo m2 p.1 p.2) m := by
        rw [List.foldl_map]
      rw [hinner, scoreOf_foldl_addTo,
        sumFor_const_one o.2.dedup (List.nodup_dedup o.2) it, List.countP_cons]
      by_cases h : it ∈ o.2
      · rw [if_pos (List.mem_dedup.mpr h)]
        simp [h]
        ring
      · rw [if_neg (fun hh => h (List.mem_dedup.mp hh))]
        simp [h]

theorem scoreOf_map_div (m : List (String × ℚ)) (t : ℚ) (k : String) :
    scoreOf (m.map (fun p => (p.1, p.2 / t))) k = scoreOf m k / t := by
  induction m with
  | nil => simp [scoreOf_nil, zero_div]
  | cons p m ih =>
      obtain ⟨k2, w⟩ := p
      rw [List.map_cons]
      by_cases h : k2 = k
      · simp only [scoreOf_cons, h, if_pos]
      · simp only [scoreOf_cons, h, if_neg, ite_false, ih]

theorem support_scoreOf (orders : List (Nat × List String)) (it : String) :
    scoreOf (itemSupport orders) it
      = ((orders.countP (fun o => decide (it ∈ o.2)) : Nat) : ℚ)
          / ((orders.length : Nat) : ℚ) := by
  rw [itemSupport, scoreOf_map_div, scoreOf_supportFold]
  rw [scoreOf_nil, zero_add]

theorem ruleConfidence_zero (support : List (String × ℚ)) (a b : String) :
    ruleConfidence support a b = 0 := by
  rw [ruleConfidence]
  have h : find2? selfItemCooccurrence a b = none := rfl
  rw [h]
  simp [zero_div]

theorem ruleLoop_eq_nil (support : List (String × ℚ))
    (orders : List (Nat × List String)) : ruleLoop support orders = [] := by
  have hstep : ∀ (ps : List (String × String))
      (rules : List (String × List (String × ℚ))),
      ps.foldl (fun rules2 p =>
        let c := ruleConfidence support p.1 p.2
        if 1/10 < c then ruleLoop.appendRule rules2 p.1 (p.2, c) else rules2) rules
        = rules := by
    intro ps
    induction ps with
    | nil => intro rules; rfl
    | cons p ps ih =>
        intro rules
        rw [List.foldl_cons]
        have hc : ¬ (1 : ℚ)/10 < ruleConfidence support p.1 p.2 := by
          rw [ruleConfidence_zero]
          norm_num
        simp only [hc, if_false]
        exact ih rules
  rw [ruleLoop]
  have houter : ∀ (os : List (Nat × List String))
      (rules : List (String × List (String × ℚ))),
      os.foldl (fun rules o =>
        (orderedPairs o.2.dedup).foldl (fun rules2 p =>
          let c := ruleConfidence support p.1 p.2
          if 1/10 < c then ruleLoop.appendRule rules2 p.1 (p.2, c) else rules2)
          rules) rules = rules := by
    intro os
    induction os with
    | nil => intro rules; rfl
    | cons o os ih =>
        intro rules
        rw [List.foldl_cons, hstep]
        exact ih rules
  exact houter orders []

theorem create_market_basket_rules_empty (rows : List OrderRow) :
    create_market_basket_rules rows = [] := by
  rw [create_market_basket_rules, ruleLoop_eq_nil]
  rfl

theorem totalCnt_self (orders : List (Nat × List String)) (a : String) :
    totalCnt orders a a = 0 := by
  rw [totalCnt]
  apply List.sum_eq_zero
  intro n hn
  rcases List.mem_map.mp hn with ⟨o, ho, rfl⟩
  rw [pairCount_orderedPairs _ (List.nodup_dedup _)]
  simp

end FeatureEngineer

namespace AssocMap

theorem find?_mem {α : Type} (m : List (String × α)) (k : String) (v : α)
    (h : find? m k = some v) : (k, v) ∈ m := by
  induction m with
  | nil => exact absurd h (by simp [find?])
  | cons hd rest ih =>
      obtain ⟨k2, w⟩ := hd
      by_cases hk : k2 = k
      · subst hk
        rw [find?, if_pos rfl] at h
        have : w = v := by
          injection h
        subst this
        exact List.mem_cons_self _ _
      · rw [find?, if_neg hk] at h
        exact List.mem_cons_of_mem _ (ih h)

end AssocMap

namespace RecommendationEngine

open FeatureEngineer (sortDesc scoreGE mem_sortDesc sorted_sortDesc sorted_take_drop)

theorem coocContributions_key (fs : Features) (oi ex : List String) :
    ∀ p ∈ coocContributions fs oi ex, p.1 ∈ featureItems fs := by
  intro p hp
  rcases List.mem_flatMap.mp hp with ⟨item, _hitem, hp2⟩
  cases hfind : find? fs.item_cooccurrence item with
  | none =>
      rw [hfind] at hp2
      exact absurd hp2 (List.not_mem_nil p)
  | some related =>
      rw [hfind] at hp2
      have hrel : p ∈ related := List.mem_of_mem_filter hp2
      have hen : (item, related) ∈ fs.item_cooccurrence := find?_mem _ _ _ hfind
      rw [featureItems]
      apply List.mem_append_left
      apply List.mem_append_left
      apply List.mem_append_left
      exact List.mem_flatMap.mpr
        ⟨(item, related), hen,
          List.mem_cons_of_mem _ (List.mem_map.mpr ⟨p, hrel, rfl⟩)⟩

theorem basketContributions_key (fs : Features) (oi ex : List String) :
    ∀ p ∈ basketContributions fs oi ex, p.1 ∈ featureItems fs := by
  intro p hp
  rcases List.mem_flatMap.mp hp with ⟨item, _hitem, hp2⟩
  cases hfind : find? fs.market_basket item with
  | none =>
      rw [hfind] at hp2
      exact absurd hp2 (List.not_mem_nil p)
  | some rules =>
      rw [hfind] at hp2
      have hrel : p ∈ rules := List.mem_of_mem_filter hp2
      have hen : (item, rules) ∈ fs.market_basket := find?_mem _ _ _ hfind
      rw [featureItems]
      apply List.mem_append_left
      apply List.mem_append_left
      apply List.mem_append_right
      exact List.mem_flatMap.mpr
        ⟨(item, rules), hen,
          List.mem_cons_of_mem _ (List.mem_map.mpr ⟨p, hrel, rfl⟩)⟩

theorem categoryContributions_key (fs : Features) (oi ex : List String) :
    ∀ p ∈ categoryContributions fs oi ex, p.1 ∈ featureItems fs := by
  intro p hp
  rw [categoryContributions] at hp
  rcases List.mem_map.mp hp with ⟨q, hq, hpq⟩
  have hq2 : q ∈ fs.item_categories := List.mem_of_mem_filter hq
  rw [featureItems]
  apply List.mem_append_left
  apply List.mem_append_right
  have : p.1 = q.1 := by
    rw [← hpq]
  rw [this]
  exact List.mem_map.mpr ⟨q, hq2, rfl⟩

theorem popularityRecommendations_key (fs : Features) (ex : List String) :
    ∀ p ∈ get_popularity_recommendations fs ex, p.1 ∈ featureItems fs := by
  intro p hp
  rw [get_popularity_recommendations] at hp
  have h1 : p ∈ sortDesc (fs.item_frequency.filter (fun p => ¬ p.1 ∈ ex)) :=
    List.mem_of_mem_take hp
  have h2 : p ∈ fs.item_frequency.filter (fun p => ¬ p.1 ∈ ex) :=
    mem_sortDesc.mp h1
  have h3 : p ∈ fs.item_frequency := List.mem_of_mem_filter h2
  rw [featureItems]
  apply List.mem_append_right
  exact List.mem_map.mpr ⟨p, h3, rfl⟩

theorem generator_keys_subset (l : List (String × ℚ)) (fs : Features)
    (hl : ∀ p ∈ l, p.1 ∈ featureItems fs) :
    ∀ k ∈ (l.foldl (fun m p => addTo m p.1 p.2) []).map (·.1),
      k ∈ featureItems fs := by
  intro k hk
  rcases (mem_keys_foldl_addTo l [] k).mp hk with h | h
  · exact absurd h (by simp)
  · rcases List.mem_map.mp h with ⟨p, hp, hpk⟩
    rw [← hpk]
    exact hl p hp

theorem blendedScores_keys (fs : Features) (oi ex : List String) :
    ∀ k ∈ (blendedScores fs oi ex).map (·.1), k ∈ featureItems fs := by
  intro k hk
  rw [blendedScores] at hk
  rcases (mem_keys_foldl_addTo_mul _ _ _ _).mp hk with hk | hk
  rotate_left
  · rcases List.mem_map.mp hk with ⟨p, hp, hpk⟩
    rw [← hpk]
    exact popularityRecommendations_key fs ex p hp
  rcases (mem_keys_foldl_addTo_mul _ _ _ _).mp hk with hk | hk
  rotate_left
  · rw [get_category_recommendations] at hk
    exact generator_keys_subset _ fs (categoryContributions_key fs oi ex) k hk
  rcases (mem_keys_foldl_addTo_mul _ _ _ _).mp hk with hk | hk
  rotate_left
  · rw [get_market_basket_recommendations] at hk
    exact generator_keys_subset _ fs (basketContributions_key fs oi ex) k hk
  rcases (mem_keys_foldl_addTo_mul _ _ _ _).mp hk with hk | hk
  · exact absurd hk (by simp)
  · rw [get_cooccurrence_recommendations] at hk
    exact generator_keys_subset _ fs (coocContributions_key fs oi ex) k hk

theorem blendedScores_scoreOf (fs : Features) (oi ex : List String) (k : String) :
    scoreOf (blendedScores fs oi ex) k
      = sumFor (get_cooccurrence_recommendations fs oi ex) k * (0.4 : ℚ)
        + sumFor (get_market_basket_recommendations fs oi ex) k * (0.3 : ℚ)
        + sumFor (get_category_recommendations fs oi ex) k * (0.2 : ℚ)
        + sumFor (get_popularity_recommendations fs ex) k * (0.1 : ℚ) := by
  rw [blendedScores]
  rw [scoreOf_foldl_addTo_mul, scoreOf_foldl_addTo_mul, scoreOf_foldl_addTo_mul,
    scoreOf_foldl_addTo_mul, scoreOf_nil]
  ring

theorem recommend_items_subset (fs : Features) (oi ex : List String) :
    ∀ x ∈ recommend_items fs oi ex, x ∈ featureItems fs := by
  intro x hx
  rw [recommend_items] at hx
  rcases List.mem_map.mp hx with ⟨p, hp, hpx⟩
  have h1 : p ∈ sortDesc (blendedScores fs oi ex) := List.mem_of_mem_take hp
  have h2 : p ∈ blendedScores fs oi ex := mem_sortDesc.mp h1
  rw [← hpx]
  exact blendedScores_keys fs oi ex p.1 (List.mem_map.mpr ⟨p, h2, rfl⟩)

theorem padLoop_spec : ∀ (fuel : Nat) (l : List String),
    3 ≤ l.length + fuel →
    padLoop fuel l = l ++ List.replicate (3 - l.length) "popular_item_fallback" := by
  intro fuel
  induction fuel with
  | zero =>
      intro l hl
      have : 3 - l.length = 0 := by omega
      simp [padLoop, this]
  | succ fuel ih =>
      intro l hl
      rw [padLoop]
      by_cases h : l.length < 3
      · rw [if_pos h, ih (l ++ ["popular_item_fallback"]) (by simp; omega)]
        have h1 : 3 - l.length = (3 - (l.length + 1)) + 1 := by omega
        rw [List.append_assoc]
        congr 1
        simp [h1, List.replicate_succ]
      · rw [if_neg h]
        have : 3 - l.length = 0 := by omega
        simp [this]

theorem recommend_items_length (fs : Features) (oi ex : List String) :
    (recommend_items fs oi ex).length ≤ 3 := by
  rw [recommend_items, List.length_map]
  have := List.length_take_le 3 (sortDesc (blendedScores fs oi ex))
  omega

theorem predictRecs_spec (fs : Features) (order_items : List String) :
    predictRecs fs order_items
      = recommend_items fs order_items order_items
        ++ List.replicate (3 - (recommend_items fs order_items order_items).length)
             "popular_item_fallback" := by
  rw [predictRecs]
  exact padLoop_spec 3 _ (by omega)

end RecommendationEngine

namespace EnhancedRecommendationEngine

theorem fallbackLoop_take (H : WingsHelpers) (cur : List String) (ctype : String)
    (store : Option String) (maxRecs : Nat) :
    ∀ (fuel : Nat) (acc : List String) (n : Nat), n ≤ acc.length →
      (fallbackLoop H cur ctype store maxRecs fuel acc).take n = acc.take n := by
  intro fuel
  induction fuel with
  | zero => intro acc n _; rfl
  | succ fuel ih =>
      intro acc n hn
      rw [fallbackLoop]
      by_cases h : acc.length < maxRecs
      · rw [if_pos h]
        cases hf : H.fallbackItems (acc ++ cur) ctype store with
        | nil => rfl
        | cons f rest =>
            rw [ih (acc ++ [f]) n (by simp; omega)]
            rw [List.take_append_of_le_length hn]
      · rw [if_neg h]

theorem map_rank_enum (l : List String) (f : Nat × String → RecRecord)
    (hf : ∀ e, (f e).rank = e.1 + 1) :
    (l.enum.map f).map (fun r => r.rank) = List.range' 1 l.length := by
  rw [List.map_map]
  have h2 : ((fun r : RecRecord => r.rank) ∘ f) = (fun e : Nat × String => e.1 + 1) :=
    funext hf
  rw [h2]
  have h3 : ∀ (s : Nat) (l2 : List String),
      (List.enumFrom s l2).map (fun e => e.1 + 1) = List.range' (s + 1) l2.length := by
    intro s l2
    induction l2 generalizing s with
    | nil => rfl
    | cons a l2 ih =>
        rw [show List.enumFrom s (a :: l2) = (s, a) :: List.enumFrom (s + 1) l2 from rfl,
          List.map_cons, ih, List.length_cons,
          show List.range' (s + 1) (l2.length + 1)
            = (s + 1) :: List.range' (s + 2) l2.length from rfl]
  exact h3 0 l

theorem map_item_name_enum (l : List String) (f : Nat × String → RecRecord)
    (hf : ∀ e, (f e).item_name = e.2) :
    (l.enum.map f).map (fun r => r.item_name) = l := by
  rw [List.map_map]
  have h2 : ((fun r : RecRecord => r.item_name) ∘ f) = (fun e : Nat × String => e.2) :=
    funext hf
  rw [h2]
  exact List.enum_map_snd l

theorem diversityPass_subset (catOf : String → String) :
    ∀ (l seen : List String),
      (∀ x ∈ (diversityPass catOf l seen).1, x ∈ l)
      ∧ (∀ x ∈ (diversityPass catOf l seen).2, x ∈ l) := by
  intro l
  induction l with
  | nil => intro seen; simp [diversityPass]
  | cons a l ih =>
      intro seen
      by_cases h : catOf a ∈ seen
      · constructor
        · intro x hx
          simp only [diversityPass, if_pos h] at hx
          exact List.mem_cons_of_mem _ ((ih seen).1 x hx)
        · intro x hx
          simp only [diversityPass, if_pos h] at hx
          rcases List.mem_cons.mp hx with hx | hx
          · exact hx ▸ List.mem_cons_self _ _
          · exact List.mem_cons_of_mem _ ((ih seen).2 x hx)
      · constructor
        · intro x hx
          simp only [diversityPass, if_neg h] at hx
          rcases List.mem_cons.mp hx with hx | hx
          · exact hx ▸ List.mem_cons_self _ _
          · exact List.mem_cons_of_mem _ ((ih (catOf a :: seen)).1 x hx)
        · intro x hx
          simp only [diversityPass, if_neg h] at hx
          exact List.mem_cons_of_mem _ ((ih (catOf a :: seen)).2 x hx)

theorem roundRobin_subset (catOf : String → String) :
    ∀ (fuel : Nat) (l : List String), ∀ x ∈ roundRobin catOf fuel l, x ∈ l := by
  intro fuel
  induction fuel with
  | zero => intro l x hx; exact absurd hx (by simp [roundRobin])
  | succ fuel ih =>
      intro l x hx
      cases l with
      | nil => exact absurd hx (by simp [roundRobin])
      | cons a l2 =>
          simp only [roundRobin] at hx
          rcases List.mem_append.mp hx with hx | hx
          · exact (diversityPass_subset catOf (a :: l2) []).1 x hx
          · exact (diversityPass_subset catOf (a :: l2) []).2 x (ih _ x hx)

theorem ensure_category_diversity_subset (catOf : String → String)
    (l : List String) (n : Nat) :
    ∀ x ∈ ensure_category_diversity catOf l n, x ∈ l := by
  intro x hx
  exact roundRobin_subset catOf l.length l x (List.mem_of_mem_take hx)

end EnhancedRecommendationEngine

namespace FeatureEngineer

theorem cooccurrence_lookup_eq (rows : List OrderRow) (a b : String) :
    find2? (calculate_item_cooccurrence rows) a b
      = (if ¬ a = b ∧ 0 < bothCount (groupOrders rows) a b
         then some ((bothCount (groupOrders rows) a b : ℚ)
             / (totalPairs (groupOrders rows) : ℚ))
         else none) := by
  simp only [calculate_item_cooccurrence]
  refine Eq.trans
    (find2?_map_inner (coocCounts (groupOrders rows))
      (fun c : Nat =>
        if 0 < totalPairs (groupOrders rows)
        then (c : ℚ) / (totalPairs (groupOrders rows) : ℚ) else 0) a b) ?_
  rw [find2?_coocCounts]
  by_cases hab : a = b
  · subst hab
    rw [totalCnt_self]
    simp
  · rw [totalCnt_eq_bothCount _ _ _ hab]
    by_cases h0 : bothCount (groupOrders rows) a b = 0
    · simp [h0, hab]
    · have hpos : 0 < bothCount (groupOrders rows) a b := Nat.pos_of_ne_zero h0
      have hle : bothCount (groupOrders rows) a b ≤ totalPairs (groupOrders rows) := by
        rw [← totalCnt_eq_bothCount _ _ _ hab]
        exact totalCnt_le_totalPairs _ _ _
      have htp : 0 < totalPairs (groupOrders rows) := lt_of_lt_of_le hpos hle
      simp [h0, hab, hpos, htp]

theorem cooccurrence_value_bounds (rows : List OrderRow) (a b : String) :
    0 ≤ (find2? (calculate_item_cooccurrence rows) a b).getD 0
    ∧ (find2? (calculate_item_cooccurrence rows) a b).getD 0 ≤ 1 := by
  rw [cooccurrence_lookup_eq]
  by_cases hc : ¬ a = b ∧ 0 < bothCount (groupOrders rows) a b
  · rw [if_pos hc]
    have hle : bothCount (groupOrders rows) a b ≤ totalPairs (groupOrders rows) := by
      rw [← totalCnt_eq_bothCount _ _ _ hc.1]
      exact totalCnt_le_totalPairs _ _ _
    have htp : 0 < totalPairs (groupOrders rows) := lt_of_lt_of_le hc.2 hle
    have htpq : (0 : ℚ) < (totalPairs (groupOrders rows) : ℚ) := by
      exact_mod_cast htp
    constructor
    · simp
      positivity
    · simp
      rw [div_le_one htpq]
      exact_mod_cast hle
  · rw [if_neg hc]
    simp

theorem specRuleConfidence_demo :
    specRuleConfidence demoOrders "Wings" "Fries" = 1/2 := by
  rw [specRuleConfidence, cooccurrence_lookup_eq, support_scoreOf]
  have h1 : bothCount (groupOrders demoOrders) "Wings" "Fries" = 2 := by decide
  have h2 : totalPairs (groupOrders demoOrders) = 4 := by decide
  have h4 : (groupOrders demoOrders).countP (fun o => decide ("Wings" ∈ o.2)) = 2 := by
    decide
  have h5 : (groupOrders demoOrders).length = 2 := by decide
  have hne : ¬ ("Wings" : String) = "Fries" := by decide
  rw [h1, h2, h4, h5]
  norm_num [hne]

end FeatureEngineer

namespace EnhancedRecommendationEngine

theorem prefix_algebra (H : WingsHelpers) (cur : List String) (ctype : String)
    (store : Option String) (M B : Nat) (CD T S : List String) (hBM : B ≤ M) :
    ((fallbackLoop H cur ctype store M M ((CD.take B ++ T) ++ S)).take M).take
        (CD.take B).length
      = CD.take B := by
  have hlen : (CD.take B).length ≤ M := by
    rw [List.length_take]
    omega
  rw [List.take_take, min_eq_left hlen]
  rw [fallbackLoop_take H cur ctype store M M _ _ (by simp)]
  rw [List.take_append_of_le_length (by simp), List.take_left]

end EnhancedRecommendationEngine

namespace PilotTestingFramework

end PilotTestingFramework

/-!
## The claims
-/

namespace FeatureEngineer

/-- C5: for every order collection and items `a`, `b`, the co-occurrence
lookup for `(a, b)` is exactly the count of orders containing both items
(deduplicated per order) divided by the dataset-wide count of ordered pairs —
present exactly when `a ≠ b` and the count is positive, so in particular no
item has an entry with itself (the `a = b` branch is `none`) — and every
stored value lies in `[0, 1]` (the default `0` covers the absent case). -/
theorem claim_C5_cooccurrence (rows : List OrderRow) (a b : String) :
    (find2? (calculate_item_cooccurrence rows) a b
      = (if ¬ a = b ∧ 0 < bothCount (groupOrders rows) a b
         then some ((bothCount (groupOrders rows) a b : ℚ)
             / (totalPairs (groupOrders rows) : ℚ))
         else none))
    ∧ 0 ≤ (find2? (calculate_item_cooccurrence rows) a b).getD 0
    ∧ (find2? (calculate_item_cooccurrence rows) a b).getD 0 ≤ 1 :=
  ⟨cooccurrence_lookup_eq rows a b, (cooccurrence_value_bounds rows a b).1,
    (cooccurrence_value_bounds rows a b).2⟩

/-- C9: with an empty collection of historical orders, feature construction
returns the empty map for item frequency, co-occurrence and market-basket
rules, and (being total functions) raises nothing. -/
theorem claim_C9_empty_orders :
    calculate_item_frequency [] = []
    ∧ calculate_item_cooccurrence [] = []
    ∧ create_market_basket_rules [] = [] :=
  ⟨rfl, rfl, rfl⟩

/-- C4: the market-basket rule set the code computes is the empty mapping for
every input, because line 184 reads the never-populated attribute
`self.item_cooccurrence`, making every confidence `0` and the `> 0.1` filter
reject every pair.  On the concrete orders `demoOrders` the specification's
formula gives `confidence(Wings→Fries) = (2/4) / 1 = 1/2 > 0.1`, so a rule
should exist, yet the code's rule set has no entry for `Wings` at all. -/
theorem claim_C4_market_basket_bug :
    (∀ rows : List OrderRow, create_market_basket_rules rows = [])
    ∧ specRuleConfidence demoOrders "Wings" "Fries" = 1/2
    ∧ (1 : ℚ)/10 < specRuleConfidence demoOrders "Wings" "Fries"
    ∧ find? (create_market_basket_rules demoOrders) "Wings" = none := by
  refine ⟨create_market_basket_rules_empty, specRuleConfidence_demo, ?_, ?_⟩
  · rw [specRuleConfidence_demo]
    norm_num
  · rw [create_market_basket_rules_empty]
    rfl

end FeatureEngineer

namespace RecommendationEngine

open FeatureEngineer (sortDesc scoreGE sorted_sortDesc sorted_take_drop)

/-- C3: the score blender gives every item the sum of its weighted
contributions from the four generators (co-occurrence 0.4, market-basket 0.3,
category 0.2, popularity 0.1), sorts the blended map by combined score in
descending order, and returns the names of the top 3: the output is the
3-prefix of the descending sort, every kept entry's score is at least every
dropped entry's score, and at most 3 items are returned. -/
theorem claim_C3_score_blender (fs : Features) (order_items exclude_items : List String) :
    (∀ k : String,
      scoreOf (blendedScores fs order_items exclude_items) k
        = sumFor (get_cooccurrence_recommendations fs order_items exclude_items) k * (0.4 : ℚ)
          + sumFor (get_market_basket_recommendations fs order_items exclude_items) k * (0.3 : ℚ)
          + sumFor (get_category_recommendations fs order_items exclude_items) k * (0.2 : ℚ)
          + sumFor (get_popularity_recommendations fs exclude_items) k * (0.1 : ℚ))
    ∧ recommend_items fs order_items exclude_items
        = ((sortDesc (blendedScores fs order_items exclude_items)).take 3).map
            (fun p => p.1)
    ∧ (recommend_items fs order_items exclude_items).length ≤ 3
    ∧ List.Sorted scoreGE (sortDesc (blendedScores fs order_items exclude_items))
    ∧ (∀ p ∈ (sortDesc (blendedScores fs order_items exclude_items)).take 3,
        ∀ q ∈ (sortDesc (blendedScores fs order_items exclude_items)).drop 3,
          q.2 ≤ p.2) := by
  refine ⟨blendedScores_scoreOf fs order_items exclude_items, rfl,
    recommend_items_length fs order_items exclude_items, sorted_sortDesc _, ?_⟩
  intro p hp q hq
  exact sorted_take_drop (sorted_sortDesc _) 3 p hp q hq

/-- C10: every predicted row carries exactly 3 recommendation fields — the
blended recommendations padded with the literal `popular_item_fallback` —
genuine recommendations always name items found in the feature maps, and
whenever the padding literal is not a feature item, any returned item that is
a feature item came from the blender, so the padded slots are not menu
items. -/
theorem claim_C10_predict_padding (fs : Features) (order_items : List String) :
    (predictRecs fs order_items).length = 3
    ∧ predictRecs fs order_items
        = recommend_items fs order_items order_items
          ++ List.replicate (3 - (recommend_items fs order_items order_items).length)
              "popular_item_fallback"
    ∧ (∀ x ∈ recommend_items fs order_items order_items, x ∈ featureItems fs)
    ∧ (¬ "popular_item_fallback" ∈ featureItems fs →
        ∀ x ∈ predictRecs fs order_items,
          x ∈ featureItems fs → x ∈ recommend_items fs order_items order_items) := by
  have hspec := predictRecs_spec fs order_items
  refine ⟨?_, hspec, recommend_items_subset fs order_items order_items, ?_⟩
  · have hlen := recommend_items_length fs order_items order_items
    rw [hspec, List.length_append, List.length_replicate]
    omega
  · intro hnf x hx hxf
    rw [hspec] at hx
    rcases List.mem_append.mp hx with hx | hx
    · exact hx
    · have hx2 : x = "popular_item_fallback" := List.eq_of_mem_replicate hx
      rw [hx2] at hxf
      exact absurd hxf hnf

end RecommendationEngine

namespace EnhancedRecommendationEngine

/-- C2: the nine helper methods `generate_fresh_recommendations` invokes are
not defined on the class (only the differently named mock helpers are), so
every call runs the prelude of lines 309-320 and then fails the attribute
lookup of line 323 with an `AttributeError`, never returning a recommendation
list. -/
theorem claim_C2_missing_helpers :
    invokedHelperNames.all (fun n => !(classMethods.contains n)) = true
    ∧ mockHelperNames.all (fun n => classMethods.contains n) = true
    ∧ ∀ (hist : HistoryMap) (cid : String) (cur : List String)
        (ctype platform : String) (store : Option String) (now : Int),
        generate_fresh_recommendations_lookup hist cid cur ctype platform store now
          = Except.error ("AttributeError: " ++ "_get_wings_r_us_recommendations") := by
  refine ⟨by decide, by decide, ?_⟩
  intro hist cid cur ctype platform store now
  rfl

/-- C6: for every helper behaviour, state and input, the recommendation list
built by lines 379-405 has at most `max_recs` entries (the platform target
count) and its rank fields are exactly the contiguous sequence
`1, 2, ..., length`. -/
theorem claim_C6_count_and_ranks (H : WingsHelpers) (hist : HistoryMap)
    (cid : String) (cur : List String) (ctype platform : String)
    (store : Option String) (now : Int) :
    (generate_fresh_recommendations H hist cid cur ctype platform store now).1.length
        ≤ maxRecsFor platform
    ∧ (generate_fresh_recommendations H hist cid cur ctype platform store now).1.map
          (fun r => r.rank)
        = List.range' 1
            (generate_fresh_recommendations H hist cid cur ctype platform store now).1.length := by
  constructor
  · simp only [generate_fresh_recommendations]
    rw [List.length_map, List.enum_length, List.length_take]
    exact min_le_left _ _
  · simp only [generate_fresh_recommendations]
    rw [map_rank_enum, List.length_map, List.enum_length]
    intro e
    rfl

/-- C1 counterexample: customer `c1` was recommended `Honey BBQ Wings` two
days ago (it is in the 7-day recent window); three fresh fallback candidates
were available to fill the target count of 3 and two other trending items
were fresh as well, yet a new call returns `Honey BBQ Wings` again — drawn
through the trending path, which the freshness filter of line 328 never
touches. -/
theorem claim_C1_counterexample :
    "Honey BBQ Wings" ∈ recentItems demoHist "c1" demoNow
    ∧ (generate_fresh_recommendations demoHelpers demoHist "c1" ["Fries"] "Guest"
        "Digital" none demoNow).1.map (fun r => r.item_name)
      = ["Honey BBQ Wings", "Buffalo Wings", "French Fries"]
    ∧ (demoData.fallbackPool.filter
        (fun it => ¬ it ∈ recentItems demoHist "c1" demoNow)).length = 3
    ∧ (demoData.trendingPool.filter
        (fun it => ¬ it ∈ recentItems demoHist "c1" demoNow)).length = 2 := by
  refine ⟨by decide, by rfl, by decide, by decide⟩

/-- C1 amended: the freshness filter applies only to the base candidates, so
the guarantee that holds is: the leading personalized entries of the output —
those drawn from the category-diversity pool over the freshness-filtered base
candidates — never name an item recommended to the customer in the last
7 days; trending, seasonal and fallback entries are not freshness-filtered.
The hypothesis states the one spec property of the diversity helper used:
it selects from the list it is given. -/
theorem claim_C1_freshness_amended (H : WingsHelpers) (hist : HistoryMap)
    (cid : String) (cur : List String) (ctype platform : String)
    (store : Option String) (now : Int)
    (hH : ∀ (l c : List String) (n : Nat), ∀ x ∈ H.categoryDiversity l c n, x ∈ l) :
    ((generate_fresh_recommendations H hist cid cur ctype platform store now).1.map
        (fun r => r.item_name)).take
        (personalizedPrefix H hist cid cur ctype platform store now).length
      = personalizedPrefix H hist cid cur ctype platform store now
    ∧ ∀ x ∈ personalizedPrefix H hist cid cur ctype platform store now,
        ¬ x ∈ recentItems hist cid now := by
  constructor
  · simp only [generate_fresh_recommendations, personalizedPrefix]
    rw [map_item_name_enum]
    · exact prefix_algebra H cur ctype store (maxRecsFor platform) _ _ _ _ (by omega)
    · intro e
      rfl
  · intro x hx
    simp only [personalizedPrefix] at hx
    have hx2 := List.mem_of_mem_take hx
    have hx3 := hH _ cur (maxRecsFor platform) x hx2
    have hx4 := List.of_mem_filter hx3
    simpa using hx4

/-- C1 witness: the amended freshness guarantee instantiated at the concrete
counterexample run (spec-modelled helpers, customer `c1`, cart `[Fries]`). -/
theorem claim_C1_freshness_witness :
    ((generate_fresh_recommendations demoHelpers demoHist "c1" ["Fries"] "Guest"
        "Digital" none demoNow).1.map (fun r => r.item_name)).take
        (personalizedPrefix demoHelpers demoHist "c1" ["Fries"] "Guest" "Digital"
          none demoNow).length
      = personalizedPrefix demoHelpers demoHist "c1" ["Fries"] "Guest" "Digital"
          none demoNow
    ∧ ∀ x ∈ personalizedPrefix demoHelpers demoHist "c1" ["Fries"] "Guest"
        "Digital" none demoNow,
        ¬ x ∈ recentItems demoHist "c1" demoNow :=
  claim_C1_freshness_amended demoHelpers demoHist "c1" ["Fries"] "Guest" "Digital"
    none demoNow
    (fun l _c n x hx =>
      ensure_category_diversity_subset (categoryOf demoData.features) l n x hx)

end EnhancedRecommendationEngine

namespace PilotTestingFramework

/-- C7: `measure_success_metrics([], [], None)` takes the empty-input early
return and yields the initialization mapping, in which every one of the 23
defined metric keys holds `0.0`; the embedded function is total, so the call
raises nothing. -/
theorem claim_C7_empty_metrics :
    measure_success_metrics [] [] none = initMetrics
    ∧ initMetrics.recommendation_adoption_rate = 0
    ∧ initMetrics.average_order_value_lift = 0
    ∧ initMetrics.basket_size_increase_items = 0
    ∧ initMetrics.revenue_per_recommendation = 0
    ∧ initMetrics.upsell_success_rate = 0
    ∧ initMetrics.click_through_rate = 0
    ∧ initMetrics.add_to_cart_rate = 0
    ∧ initMetrics.conversion_rate = 0
    ∧ initMetrics.recommendation_interaction_time = 0
    ∧ initMetrics.customer_satisfaction_score = 0
    ∧ initMetrics.recommendation_accuracy = 0
    ∧ initMetrics.response_time_ms = 0
    ∧ initMetrics.personalization_effectiveness = 0
    ∧ initMetrics.freshness_score = 0
    ∧ initMetrics.cross_platform_consistency = 0
    ∧ initMetrics.combo_completion_rate = 0
    ∧ initMetrics.premium_item_upsell_rate = 0
    ∧ initMetrics.category_diversification = 0
    ∧ initMetrics.repeat_recommendation_avoidance = 0
    ∧ initMetrics.complaint_rate = 0
    ∧ initMetrics.order_abandonment_impact = 0
    ∧ initMetrics.staff_productivity_impact = 0
    ∧ initMetrics.system_error_rate = 0 :=
  ⟨rfl, rfl, rfl, rfl, rfl, rfl, rfl, rfl, rfl, rfl, rfl, rfl, rfl, rfl, rfl,
    rfl, rfl, rfl, rfl, rfl, rfl, rfl, rfl, rfl⟩

/-- C8: on non-empty recommendation and interaction batches, the adoption rate
is the purchase count over the recommendation count, click-through is
clicks over recommendations, add-to-cart is adds over recommendations, and
conversion is purchases over clicks with value 0 when there are no clicks. -/
theorem claim_C8_rates (recs : List RecInput) (inters : List Interaction)
    (baseline : Option ℚ) (h1 : ¬ recs = []) (h2 : ¬ inters = []) :
    (measure_success_metrics recs inters baseline).recommendation_adoption_rate
        = ((inters.filter (fun i => i.action = "purchase")).length : ℚ)
            / (recs.length : ℚ)
    ∧ (measure_success_metrics recs inters baseline).click_through_rate
        = ((inters.filter (fun i => i.action = "click")).length : ℚ)
            / (recs.length : ℚ)
    ∧ (measure_success_metrics recs inters baseline).add_to_cart_rate
        = ((inters.filter (fun i => i.action = "add_to_cart")).length : ℚ)
            / (recs.length : ℚ)
    ∧ (measure_success_metrics recs inters baseline).conversion_rate
        = (if 0 < (inters.filter (fun i => i.action = "click")).length
           then ((inters.filter (fun i => i.action = "purchase")).length : ℚ)
              / ((inters.filter (fun i => i.action = "click")).length : ℚ)
           else 0) := by
  have hcond : ¬ (recs = [] ∨ inters = []) := by
    intro h
    rcases h with h | h
    · exact h1 h
    · exact h2 h
  simp only [measure_success_metrics, if_neg hcond]
  exact ⟨trivial, trivial, trivial, trivial⟩

/-- C8 witness: the rate formulas instantiated at 10 recommendations and
3 purchase events — the adoption rate is then 3/10, the 0.3 of the spec's
example. -/
theorem claim_C8_rates_witness :
    ¬ demoRecs10 = [] ∧ ¬ demoPurchase3 = []
    ∧ ((measure_success_metrics demoRecs10 demoPurchase3 none).recommendation_adoption_rate
          = ((demoPurchase3.filter (fun i => i.action = "purchase")).length : ℚ)
              / (demoRecs10.length : ℚ)
      ∧ (measure_success_metrics demoRecs10 demoPurchase3 none).click_through_rate
          = ((demoPurchase3.filter (fun i => i.action = "click")).length : ℚ)
              / (demoRecs10.length : ℚ)
      ∧ (measure_success_metrics demoRecs10 demoPurchase3 none).add_to_cart_rate
          = ((demoPurchase3.filter (fun i => i.action = "add_to_cart")).length : ℚ)
              / (demoRecs10.length : ℚ)
      ∧ (measure_success_metrics demoRecs10 demoPurchase3 none).conversion_rate
          = (if 0 < (demoPurchase3.filter (fun i => i.action = "click")).length
             then ((demoPurchase3.filter (fun i => i.action = "purchase")).length : ℚ)
                / ((demoPurchase3.filter (fun i => i.action = "click")).length : ℚ)
             else 0)) :=
  ⟨by decide, by decide,
    claim_C8_rates demoRecs10 demoPurchase3 none (by decide) (by decide)⟩

end PilotTestingFramework
